import Mathlib

/-!
# Verification of the calculator plugins in `entity-plugin-examples`

Shallow embedding of the three calculator variants of the repository:

* `BasicCalculatorPlugin` (`tools/calculator/basic_calculator.py`) — a
  hand-rolled recursive-descent parser over the alphabet `0-9 + - * / . ( )`;
* `ExpressionEvaluatorPlugin` (`tools/calculator/expression_evaluator.py`) —
  an AST walker with a variable environment and a bounded calculation history;
* `ScientificCalculatorPlugin` (`tools/calculator/scientific_calculator.py`) —
  textual rewriting (implicit multiplication, constant substitution, function
  substitution) followed by arithmetic evaluation.

Python `float` values are modelled by `PVal`: exact rationals together with
the special values `inf`, `-inf` and `nan`.  All inputs exercised by the
theorems below stay inside the subdomain where IEEE-754 double arithmetic is
exact, so the rational model agrees with the Python runtime there.
-/

/-- An exact rational number kept in lowest terms (an executable stand-in for
`Rat`, whose arithmetic is `@[irreducible]` and hence opaque to the kernel).
Every value produced by `MRat.norm` and the operations below is reduced, with
a positive denominator, so structural equality is value equality. -/
structure MRat where
  num : Int
  den : Nat
deriving DecidableEq, Repr

namespace MRat

/-- Build the reduced fraction `n / d` (`d = 0` is never used below). -/
def norm (n : Int) (d : Nat) : MRat :=
  if d = 0 then ⟨0, 1⟩
  else
    let g := Nat.gcd n.natAbs d
    ⟨n / (g : Int), d / g⟩

def ofNat (n : Nat) : MRat := ⟨(n : Int), 1⟩

def zero : MRat := ⟨0, 1⟩

def add (a b : MRat) : MRat := norm (a.num * b.den + b.num * a.den) (a.den * b.den)

def sub (a b : MRat) : MRat := norm (a.num * b.den - b.num * a.den) (a.den * b.den)

def mul (a b : MRat) : MRat := norm (a.num * b.num) (a.den * b.den)

/-- Exact division (the divisor is nonzero wherever this is used). -/
def div (a b : MRat) : MRat :=
  norm (a.num * (b.den : Int) * (if b.num < 0 then -1 else 1)) (a.den * b.num.natAbs)

def neg (a : MRat) : MRat := ⟨-a.num, a.den⟩

/-- Value-level positivity (denominators are positive by construction). -/
def isPos (a : MRat) : Bool := 0 < a.num

def isZero (a : MRat) : Bool := a.num = 0

end MRat

/-- Model of a Python `float`: a finite value (kept as an exact rational),
positive infinity, negative infinity, or NaN. -/
inductive PVal where
  | fin : MRat → PVal
  | inf : PVal
  | ninf : PVal
  | nan : PVal
deriving DecidableEq, Repr

namespace PVal

/-- Python `float.__add__` on the modelled domain. -/
def pyAdd : PVal → PVal → PVal
  | fin a, fin b => fin (a.add b)
  | fin _, inf => inf
  | fin _, ninf => ninf
  | inf, fin _ => inf
  | ninf, fin _ => ninf
  | inf, inf => inf
  | ninf, ninf => ninf
  | inf, ninf => nan
  | ninf, inf => nan
  | _, _ => nan

/-- Python `float.__sub__` on the modelled domain. -/
def pySub : PVal → PVal → PVal
  | fin a, fin b => fin (a.sub b)
  | fin _, inf => ninf
  | fin _, ninf => inf
  | inf, fin _ => inf
  | ninf, fin _ => ninf
  | inf, ninf => inf
  | ninf, inf => ninf
  | inf, inf => nan
  | ninf, ninf => nan
  | _, _ => nan

/-- Python `float.__mul__` on the modelled domain. -/
def pyMul : PVal → PVal → PVal
  | fin a, fin b => fin (a.mul b)
  | fin a, inf => if a.isZero then nan else if a.isPos then inf else ninf
  | fin a, ninf => if a.isZero then nan else if a.isPos then ninf else inf
  | inf, fin b => if b.isZero then nan else if b.isPos then inf else ninf
  | ninf, fin b => if b.isZero then nan else if b.isPos then ninf else inf
  | inf, inf => inf
  | ninf, ninf => inf
  | inf, ninf => ninf
  | ninf, inf => ninf
  | _, _ => nan

/-- Python `float.__truediv__` for a nonzero divisor (the zero-divisor case
is intercepted by the calculator's own lambda, see `pyDivOp`). -/
def pyDiv : PVal → PVal → PVal
  | fin a, fin b => if b.isZero then nan else fin (a.div b)
  | fin _, inf => fin .zero
  | fin _, ninf => fin .zero
  | inf, fin b => if b.num < 0 then ninf else inf
  | ninf, fin b => if b.num < 0 then inf else ninf
  | _, _ => nan

/-- The basic calculator's division entry
`lambda x, y: x / y if y != 0 else float('inf')`
(`basic_calculator.py`, `operations['/']`): whenever the divisor equals zero
the result is positive infinity, regardless of the dividend. -/
def pyDivOp (x y : PVal) : PVal :=
  if y = fin .zero then inf else pyDiv x y

/-- Python unary minus on a float. -/
def pyNeg : PVal → PVal
  | fin a => fin a.neg
  | inf => ninf
  | ninf => inf
  | nan => nan

end PVal

/-- Decimal digits of a natural number, most significant first (fuel-indexed;
`fuel = n + 1` always suffices). -/
def natDigitsAux : Nat → Nat → List Char
  | 0, _ => []
  | fuel + 1, n =>
    if n = 0 then []
    else natDigitsAux fuel (n / 10) ++ [Char.ofNat (48 + n % 10)]

/-- Python `str()` of a nonnegative integer. -/
def natStr (n : Nat) : String :=
  if n = 0 then "0" else String.mk (natDigitsAux (n + 1) n)

/-- Python `str()` of an `int`. -/
def intStr (i : Int) : String :=
  if i < 0 then "-" ++ natStr i.natAbs else natStr i.natAbs

/-- Digits of a fractional part produced by long division, stopping when the
remainder vanishes (bounded by the first argument). -/
def fracDigits : Nat → Nat → Nat → List Char
  | 0, _, _ => []
  | k + 1, r, d =>
    if r = 0 ∨ d = 0 then []
    else Char.ofNat (48 + (r * 10) / d) :: fracDigits k ((r * 10) % d) d

/-- Model of Python's `str()` on a float.  Exact on the values arising in the
verified claims: integral doubles render as `"n.0"`, the special values as
`"inf"`, `"-inf"`, `"nan"`, and finite decimal fractions by their exact
decimal expansion (Python's shortest round-trip repr coincides with the exact
expansion for decimally-representable doubles). -/
def pyFloatStr : PVal → String
  | .inf => "inf"
  | .ninf => "-inf"
  | .nan => "nan"
  | .fin q =>
    if q.den = 1 then intStr q.num ++ ".0"
    else
      (if q.num < 0 then "-" else "") ++ natStr (q.num.natAbs / q.den) ++ "." ++
        String.mk (fracDigits 17 (q.num.natAbs % q.den) q.den)

/-! ## Basic calculator (`basic_calculator.py`)

The Python parser mutates a cursor `self.pos` into a fixed string and never
rewinds; we model it functionally by passing the remaining character list.
Python's call stack is modelled by a fuel parameter: running out of fuel
corresponds to Python's `RecursionError` (which the `_execute_impl` boundary
catches like any other exception).  The fuel supplied at the entry point is
proved sufficient for the whole parenthesis-free fragment below. -/

/-- Error message used when the fuel is exhausted, mirroring the message of a
Python `RecursionError`. -/
def maxRecMsg : String := "maximum recursion depth exceeded"

/-- The natural number denoted by a list of decimal digit characters. -/
def digitsVal (ds : List Char) : Nat :=
  ds.foldl (fun a c => a * 10 + (c.toNat - 48)) 0

/-- `BasicCalculatorPlugin._parse_number`: digits, an optional decimal point,
and further digits; at least one character must be consumed, and a lone `.`
fails like Python's `float('.')`. -/
def parseNumber (cs : List Char) : Except String (PVal × List Char) :=
  let d1 := cs.takeWhile Char.isDigit
  let r1 := cs.dropWhile Char.isDigit
  match r1 with
  | '.' :: r2 =>
    let d2 := r2.takeWhile Char.isDigit
    let r3 := r2.dropWhile Char.isDigit
    if d1.isEmpty ∧ d2.isEmpty then
      .error "could not convert string to float: '.'"
    else
      .ok (.fin (MRat.norm ((digitsVal d1 * 10 ^ d2.length + digitsVal d2 : Nat) : Int)
        (10 ^ d2.length)), r3)
  | _ =>
    if d1.isEmpty then .error "Expected number"
    else .ok (.fin (MRat.ofNat (digitsVal d1)), r1)

mutual

/-- `BasicCalculatorPlugin._parse_expression`: parse a term, then fold
`+`/`-` operators left-to-right (`parseExprLoop` is the `while` loop). -/
def parseExpression : Nat → List Char → Except String (PVal × List Char)
  | 0, _ => .error maxRecMsg
  | n + 1, cs =>
    match parseTerm n cs with
    | .error e => .error e
    | .ok (v, cs') => parseExprLoop n v cs'

/-- The `while` loop of `_parse_expression`: as long as the next character is
`+` or `-`, parse the next term and combine left-associatively. -/
def parseExprLoop : Nat → PVal → List Char → Except String (PVal × List Char)
  | 0, _, _ => .error maxRecMsg
  | n + 1, acc, cs =>
    match cs with
    | c :: rest =>
      if c = '+' then
        match parseTerm n rest with
        | .error e => .error e
        | .ok (v, cs') => parseExprLoop n (acc.pyAdd v) cs'
      else if c = '-' then
        match parseTerm n rest with
        | .error e => .error e
        | .ok (v, cs') => parseExprLoop n (acc.pySub v) cs'
      else .ok (acc, cs)
    | [] => .ok (acc, [])

/-- `BasicCalculatorPlugin._parse_term`: parse a factor, then fold `*`/`/`
operators left-to-right. -/
def parseTerm : Nat → List Char → Except String (PVal × List Char)
  | 0, _ => .error maxRecMsg
  | n + 1, cs =>
    match parseFactor n cs with
    | .error e => .error e
    | .ok (v, cs') => parseTermLoop n v cs'

/-- The `while` loop of `_parse_term`. -/
def parseTermLoop : Nat → PVal → List Char → Except String (PVal × List Char)
  | 0, _, _ => .error maxRecMsg
  | n + 1, acc, cs =>
    match cs with
    | c :: rest =>
      if c = '*' then
        match parseFactor n rest with
        | .error e => .error e
        | .ok (v, cs') => parseTermLoop n (acc.pyMul v) cs'
      else if c = '/' then
        match parseFactor n rest with
        | .error e => .error e
        | .ok (v, cs') => parseTermLoop n (acc.pyDivOp v) cs'
      else .ok (acc, cs)
    | [] => .ok (acc, [])

/-- `BasicCalculatorPlugin._parse_factor`: unary signs, parentheses, or a
number. -/
def parseFactor : Nat → List Char → Except String (PVal × List Char)
  | 0, _ => .error maxRecMsg
  | n + 1, cs =>
    match cs with
    | [] => .error "Unexpected end of expression"
    | c :: rest =>
      if c = '-' then
        match parseFactor n rest with
        | .error e => .error e
        | .ok (v, cs') => .ok (v.pyNeg, cs')
      else if c = '+' then
        parseFactor n rest
      else if c = '(' then
        match parseExpression n rest with
        | .error e => .error e
        | .ok (v, cs') =>
          match cs' with
          | ')' :: cs'' => .ok (v, cs'')
          | _ => .error "Missing closing parenthesis"
      else
        parseNumber (c :: rest)

end

/-- Python whitespace characters removed by `re.sub(r'\s+', '', expr)`
(ASCII fragment; the claims' inputs contain only spaces). -/
def isPySpace (c : Char) : Bool :=
  c = ' ' || c = '\t' || c = '\n' || c = '\r' || c = '\x0b' || c = '\x0c'

/-- The whitelist of `BasicCalculatorPlugin._clean_expression`. -/
def allowedChars : List Char :=
  ['0', '1', '2', '3', '4', '5', '6', '7', '8', '9', '+', '-', '*', '/', '.', '(', ')']

/-- `BasicCalculatorPlugin._clean_expression`: strip every whitespace
character, then reject any character outside the whitelist, then map the
empty string to `"0"`. -/
def cleanExpression (cs : List Char) : Except String (List Char) :=
  let e := cs.filter (fun c => !(isPySpace c))
  if e.all (fun c => allowedChars.contains c) then
    if e.isEmpty then .ok ['0'] else .ok e
  else .error "Invalid characters in expression"

/-- `BasicCalculatorPlugin._evaluate_expression`: run the recursive-descent
parser and reject leftover input.  The fuel `4 * length + 4` is an upper
bound on the call depth the Python runtime performs without hitting its
recursion limit on the inputs considered here (proved sufficient for every
parenthesis-free expression below). -/
def evaluateExpression (cs : List Char) : Except String PVal :=
  match parseExpression (4 * cs.length + 4) cs with
  | .error e => .error e
  | .ok (v, rest) =>
    if rest.isEmpty then .ok v
    else .error "Unexpected characters at end of expression"

/-- Python's `context.message or dflt`: `None` and the empty string are falsy
and replaced by the default. -/
def pyOr (message : Option String) (dflt : String) : String :=
  match message with
  | none => dflt
  | some s => if s = "" then dflt else s

/-- Python `str.strip()`: drop leading and trailing whitespace. -/
def pyStrip (cs : List Char) : List Char :=
  ((cs.dropWhile isPySpace).reverse.dropWhile isPySpace).reverse

/-- `BasicCalculatorPlugin._execute_impl`: strip the message, clean, parse,
and convert every raised error into a `"Calculator Error: "`-prefixed
string. -/
def basicExecuteImpl (message : Option String) : String :=
  let expression := pyStrip (pyOr message "0").toList
  match cleanExpression expression with
  | .error e => "Calculator Error: " ++ e
  | .ok cs =>
    match evaluateExpression cs with
    | .ok v => "Result: " ++ pyFloatStr v
    | .error e => "Calculator Error: " ++ e

/-! ## Parenthesis-free expressions and their standard semantics

`SumE` describes exactly the well-formed expressions over `+ - * /` without
parentheses and without unary signs: a sum of terms, each term a product /
quotient chain of numerals.  `SumE.eval` is the reference semantics written
from the specification's words: multiplication and division bind tighter
than addition and subtraction, and operators of equal precedence combine
left-associatively.  The claim theorem compares the calculator's parser
with this reference semantics. -/

/-- A numeral: integer digits and (possibly absent) fractional digits. -/
structure Numeral where
  ip : List Char
  fp : List Char
deriving DecidableEq, Repr

/-- Well-formedness of a numeral: at least one integer digit, all digits. -/
def Numeral.wf (m : Numeral) : Prop :=
  m.ip ≠ [] ∧ (∀ c ∈ m.ip, c.isDigit = true) ∧ (∀ c ∈ m.fp, c.isDigit = true)

instance (m : Numeral) : Decidable m.wf := by unfold Numeral.wf; infer_instance

/-- Source text of a numeral. -/
def Numeral.render (m : Numeral) : List Char :=
  m.ip ++ (if m.fp.isEmpty then [] else '.' :: m.fp)

/-- The float value a numeral denotes (exact on the decimal fragment). -/
def Numeral.val (m : Numeral) : PVal :=
  if m.fp.isEmpty then .fin (MRat.ofNat (digitsVal m.ip))
  else .fin (MRat.norm ((digitsVal m.ip * 10 ^ m.fp.length + digitsVal m.fp : Nat) : Int)
    (10 ^ m.fp.length))

/-- Multiplicative operators. -/
inductive TOp where
  | mul : TOp
  | div : TOp
deriving DecidableEq, Repr

/-- Additive operators. -/
inductive AOp where
  | add : AOp
  | sub : AOp
deriving DecidableEq, Repr

def TOp.char : TOp → Char
  | .mul => '*'
  | .div => '/'

def AOp.char : AOp → Char
  | .add => '+'
  | .sub => '-'

/-- The calculator's operation table entry for a multiplicative operator. -/
def TOp.apply : TOp → PVal → PVal → PVal
  | .mul => PVal.pyMul
  | .div => PVal.pyDivOp

/-- The calculator's operation table entry for an additive operator. -/
def AOp.apply : AOp → PVal → PVal → PVal
  | .add => PVal.pyAdd
  | .sub => PVal.pySub

/-- A product/quotient chain: a numeral followed by `*`/`/` continuations. -/
structure TermE where
  first : Numeral
  rest : List (TOp × Numeral)
deriving DecidableEq, Repr

/-- A parenthesis-free expression: a term followed by `+`/`-`
continuations. -/
structure SumE where
  first : TermE
  rest : List (AOp × TermE)
deriving DecidableEq, Repr

def renderTOps : List (TOp × Numeral) → List Char
  | [] => []
  | (o, m) :: r => o.char :: m.render ++ renderTOps r

def TermE.render (t : TermE) : List Char :=
  t.first.render ++ renderTOps t.rest

def renderAOps : List (AOp × TermE) → List Char
  | [] => []
  | (o, t) :: r => o.char :: t.render ++ renderAOps r

/-- Source text of a parenthesis-free expression. -/
def SumE.render (s : SumE) : List Char :=
  s.first.render ++ renderAOps s.rest

/-- Left-associative evaluation of a `*`/`/` chain (reference semantics). -/
def evalTOps (acc : PVal) : List (TOp × Numeral) → PVal
  | [] => acc
  | (o, m) :: r => evalTOps (o.apply acc m.val) r

def TermE.eval (t : TermE) : PVal :=
  evalTOps t.first.val t.rest

/-- Left-associative evaluation of a `+`/`-` chain over already-evaluated
terms: the spec's "multiplication/division before addition/subtraction,
equal precedence left-to-right". -/
def evalAOps (acc : PVal) : List (AOp × TermE) → PVal
  | [] => acc
  | (o, t) :: r => evalAOps (o.apply acc t.eval) r

def SumE.eval (s : SumE) : PVal :=
  evalAOps s.first.eval s.rest

def TermE.wf (t : TermE) : Prop :=
  t.first.wf ∧ ∀ p ∈ t.rest, (Prod.snd p : Numeral).wf

instance (t : TermE) : Decidable t.wf := by unfold TermE.wf; infer_instance

def SumE.wf (s : SumE) : Prop :=
  s.first.wf ∧ ∀ p ∈ s.rest, (Prod.snd p : TermE).wf

instance (s : SumE) : Decidable s.wf := by unfold SumE.wf; infer_instance

/-- Fuel needed by the `+`/`-` layer of the parser. -/
def needA : List (AOp × TermE) → Nat
  | [] => 0
  | (_, t) :: r => t.rest.length + 3 + needA r

/-- The expression `2+3*4` as a `SumE`. -/
def sumTwoPlusThreeTimesFour : SumE :=
  ⟨⟨⟨['2'], []⟩, []⟩, [(AOp.add, ⟨⟨['3'], []⟩, [(TOp.mul, ⟨['4'], []⟩)]⟩)]⟩

/-- The expression `10-2-3` as a `SumE`. -/
def sumTenMinusTwoMinusThree : SumE :=
  ⟨⟨⟨['1', '0'], []⟩, []⟩, [(AOp.sub, ⟨⟨['2'], []⟩, []⟩), (AOp.sub, ⟨⟨['3'], []⟩, []⟩)]⟩

/-- The remaining input after a numeral is either exhausted or starts with an
operator character. -/
def opHead (cs : List Char) : Prop :=
  ∀ c, cs.head? = some c → c = '*' ∨ c = '/' ∨ c = '+' ∨ c = '-'

/-- The remaining input after a term is either exhausted or starts with an
additive operator character. -/
def sumHead (cs : List Char) : Prop :=
  ∀ c, cs.head? = some c → c = '+' ∨ c = '-'

/-! ## Extended expression evaluator (`expression_evaluator.py`)

The extended variant parses input with Python's `ast` module and walks the
resulting tree (`_eval_node`).  The embedding models the stdlib pieces the
plugin relies on (`ast.parse` in `mode='eval'`, `operator.*`, `str()` /
`float()` conversions) on the arithmetic fragment exercised by the plugin's
documented behaviour: int and float constants, names, unary `+`/`-` and
binary `+ - * /`.  `_eval_node` itself is translated branch by branch on
that fragment. -/

/-- A Python object of the modelled fragment: `int`, `float`, or a built-in
function object (what `_eval_node` returns for a name bound in
`self.functions`). -/
inductive PyObj where
  | int : Int → PyObj
  | float : MRat → PyObj
  | builtin : String → PyObj
deriving DecidableEq, Repr

/-- A raised Python exception: constructor = exception class, payload =
`str(e)`. -/
inductive PyErr where
  | nameError : String → PyErr
  | typeError : String → PyErr
  | zeroDivisionError : String → PyErr
  | valueError : String → PyErr
  | syntaxError : String → PyErr
deriving DecidableEq, Repr

/-- `str(e)` of an exception. -/
def PyErr.msg : PyErr → String
  | .nameError m => m
  | .typeError m => m
  | .zeroDivisionError m => m
  | .valueError m => m
  | .syntaxError m => m

/-- Binary operator nodes of the modelled `ast` fragment. -/
inductive PyBinOp where
  | add : PyBinOp
  | sub : PyBinOp
  | mult : PyBinOp
  | div : PyBinOp
deriving DecidableEq, Repr

/-- Modelled from the Python stdlib: the `ast` expression nodes produced by
`ast.parse(expr, mode='eval')` on the arithmetic fragment (constants, names,
unary sign, binary `+ - * /`).  `unaryop true` is `USub`, `unaryop false`
is `UAdd`. -/
inductive PyAst where
  | constInt : Int → PyAst
  | constFloat : MRat → PyAst
  | name : String → PyAst
  | binop : PyAst → PyBinOp → PyAst → PyAst
  | unaryop : Bool → PyAst → PyAst
deriving DecidableEq, Repr

/-- Leading ASCII spaces skipped by the Python tokenizer. -/
def skipSpaces (cs : List Char) : List Char :=
  cs.dropWhile (fun c => isPySpace c)

def isIdentStart (c : Char) : Bool := c.isAlpha || c = '_'

def isIdentChar (c : Char) : Bool := c.isAlpha || c.isDigit || c = '_'

/-- The message of the `SyntaxError` raised by `ast.parse` on bad input. -/
def pySyntaxErrMsg : String := "invalid syntax (<unknown>, line 1)"

/-- A numeric literal token (`int` or decimal `float`). -/
def pyLexNumber (cs : List Char) : Except PyErr (PyAst × List Char) :=
  let d1 := cs.takeWhile Char.isDigit
  let r1 := cs.dropWhile Char.isDigit
  match r1 with
  | '.' :: r2 =>
    let d2 := r2.takeWhile Char.isDigit
    let r3 := r2.dropWhile Char.isDigit
    if d1.isEmpty && d2.isEmpty then .error (.syntaxError pySyntaxErrMsg)
    else .ok (.constFloat (MRat.norm ((digitsVal d1 * 10 ^ d2.length + digitsVal d2 : Nat) : Int)
      (10 ^ d2.length)), r3)
  | _ =>
    if d1.isEmpty then .error (.syntaxError pySyntaxErrMsg)
    else .ok (.constInt ((digitsVal d1 : Nat) : Int), r1)

mutual

/-- Modelled from the Python stdlib: the expression grammar of `ast.parse`
on the arithmetic fragment — additive level. -/
def pyParseE : Nat → List Char → Except PyErr (PyAst × List Char)
  | 0, _ => .error (.syntaxError pySyntaxErrMsg)
  | n + 1, cs =>
    match pyParseT n cs with
    | .error e => .error e
    | .ok (a, cs') => pyParseELoop n a cs'

def pyParseELoop : Nat → PyAst → List Char → Except PyErr (PyAst × List Char)
  | 0, _, _ => .error (.syntaxError pySyntaxErrMsg)
  | n + 1, acc, cs =>
    match skipSpaces cs with
    | c :: rest =>
      if c = '+' then
        match pyParseT n rest with
        | .error e => .error e
        | .ok (b, cs') => pyParseELoop n (.binop acc .add b) cs'
      else if c = '-' then
        match pyParseT n rest with
        | .error e => .error e
        | .ok (b, cs') => pyParseELoop n (.binop acc .sub b) cs'
      else .ok (acc, c :: rest)
    | [] => .ok (acc, [])

/-- Multiplicative level. -/
def pyParseT : Nat → List Char → Except PyErr (PyAst × List Char)
  | 0, _ => .error (.syntaxError pySyntaxErrMsg)
  | n + 1, cs =>
    match pyParseF n cs with
    | .error e => .error e
    | .ok (a, cs') => pyParseTLoop n a cs'

def pyParseTLoop : Nat → PyAst → List Char → Except PyErr (PyAst × List Char)
  | 0, _, _ => .error (.syntaxError pySyntaxErrMsg)
  | n + 1, acc, cs =>
    match skipSpaces cs with
    | c :: rest =>
      if c = '*' then
        match pyParseF n rest with
        | .error e => .error e
        | .ok (b, cs') => pyParseTLoop n (.binop acc .mult b) cs'
      else if c = '/' then
        match pyParseF n rest with
        | .error e => .error e
        | .ok (b, cs') => pyParseTLoop n (.binop acc .div b) cs'
      else .ok (acc, c :: rest)
    | [] => .ok (acc, [])

/-- Unary / atomic level: signs, parentheses, literals and names. -/
def pyParseF : Nat → List Char → Except PyErr (PyAst × List Char)
  | 0, _ => .error (.syntaxError pySyntaxErrMsg)
  | n + 1, cs =>
    match skipSpaces cs with
    | [] => .error (.syntaxError pySyntaxErrMsg)
    | c :: rest =>
      if c = '-' then
        match pyParseF n rest with
        | .error e => .error e
        | .ok (a, cs') => .ok (.unaryop true a, cs')
      else if c = '+' then
        match pyParseF n rest with
        | .error e => .error e
        | .ok (a, cs') => .ok (.unaryop false a, cs')
      else if c = '(' then
        match pyParseE n rest with
        | .error e => .error e
        | .ok (a, cs') =>
          match skipSpaces cs' with
          | ')' :: cs'' => .ok (a, cs'')
          | _ => .error (.syntaxError pySyntaxErrMsg)
      else if isIdentStart c then
        .ok (.name (String.mk (c :: rest.takeWhile isIdentChar)), rest.dropWhile isIdentChar)
      else if c.isDigit || c = '.' then
        pyLexNumber (c :: rest)
      else .error (.syntaxError pySyntaxErrMsg)

end

/-- Modelled from the Python stdlib: `ast.parse(expr, mode='eval').body` on
the arithmetic fragment, failing with `SyntaxError` on leftover input. -/
def pyParse (cs : List Char) : Except PyErr PyAst :=
  match pyParseE (4 * cs.length + 4) cs with
  | .error e => .error e
  | .ok (a, rest) =>
    if (skipSpaces rest).isEmpty then .ok a
    else .error (.syntaxError pySyntaxErrMsg)

/-- `self.variables` (a `dict[str, float]`): association list in insertion
order. -/
def lookupVar : List (String × MRat) → String → Option MRat
  | [], _ => none
  | (k, v) :: r, x => if k = x then some v else lookupVar r x

/-- Python `dict.__setitem__`: update in place, or append at the end. -/
def insertVar : List (String × MRat) → String → MRat → List (String × MRat)
  | [], x, v => [(x, v)]
  | (k, w) :: r, x, v => if k = x then (k, v) :: r else (k, w) :: insertVar r x v

/-- The keys of `self.functions` in insertion order
(`expression_evaluator.py`, `__init__`). -/
def builtinFunctions : List String :=
  ["abs", "max", "min", "sum", "len", "pow", "round"]

/-- `int`/`float` promotion used by `operator.add/sub/mul` on the fragment. -/
def pyObjArith (f : MRat → MRat → MRat) (g : Int → Int → Int) :
    PyObj → PyObj → Except PyErr PyObj
  | .int a, .int b => .ok (.int (g a b))
  | .int a, .float b => .ok (.float (f ⟨a, 1⟩ b))
  | .float a, .int b => .ok (.float (f a ⟨b, 1⟩))
  | .float a, .float b => .ok (.float (f a b))
  | _, _ => .error (.typeError "unsupported operand type(s)")

/-- `operator.truediv`: always a float; zero divisor raises
`ZeroDivisionError`. -/
def pyObjDiv : PyObj → PyObj → Except PyErr PyObj
  | .int a, .int b =>
    if b = 0 then .error (.zeroDivisionError "division by zero")
    else .ok (.float (MRat.div ⟨a, 1⟩ ⟨b, 1⟩))
  | .int a, .float b =>
    if b.isZero then .error (.zeroDivisionError "float division by zero")
    else .ok (.float (MRat.div ⟨a, 1⟩ b))
  | .float a, .int b =>
    if b = 0 then .error (.zeroDivisionError "float division by zero")
    else .ok (.float (MRat.div a ⟨b, 1⟩))
  | .float a, .float b =>
    if b.isZero then .error (.zeroDivisionError "float division by zero")
    else .ok (.float (MRat.div a b))
  | _, _ => .error (.typeError "unsupported operand type(s)")

/-- The `SAFE_OPERATORS` dispatch for the fragment's binary operators. -/
def applySafeOp : PyBinOp → PyObj → PyObj → Except PyErr PyObj
  | .add => pyObjArith MRat.add (· + ·)
  | .sub => pyObjArith MRat.sub (· - ·)
  | .mult => pyObjArith MRat.mul (· * ·)
  | .div => pyObjDiv

/-- `operator.neg` / `operator.pos` on the fragment. -/
def applyUnaryOp (neg : Bool) : PyObj → Except PyErr PyObj
  | .int a => .ok (.int (if neg then -a else a))
  | .float a => .ok (.float (if neg then a.neg else a))
  | _ => .error (.typeError "bad operand type for unary operator")

/-- `ExpressionEvaluatorPlugin._eval_node` on the modelled fragment:
constants evaluate to themselves; a name resolves first in
`self.variables`, then in `self.functions`, else raises
`NameError(f"Name '{id}' is not defined")`; binary and unary operators
dispatch through `SAFE_OPERATORS`. -/
def evalNode (vars : List (String × MRat)) : PyAst → Except PyErr PyObj
  | .constInt i => .ok (.int i)
  | .constFloat q => .ok (.float q)
  | .name x =>
    match lookupVar vars x with
    | some v => .ok (.float v)
    | none =>
      if builtinFunctions.contains x then .ok (.builtin x)
      else .error (.nameError ("Name '" ++ x ++ "' is not defined"))
  | .binop l op r =>
    match evalNode vars l with
    | .error e => .error e
    | .ok lv =>
      match evalNode vars r with
      | .error e => .error e
      | .ok rv => applySafeOp op lv rv
  | .unaryop neg a =>
    match evalNode vars a with
    | .error e => .error e
    | .ok v => applyUnaryOp neg v

/-- `ExpressionEvaluatorPlugin._safe_eval`: parse then walk; any exception
raised inside is re-raised as
`ValueError(f"Cannot parse expression: {str(e)}")`. -/
def safeEval (vars : List (String × MRat)) (cs : List Char) : Except String PyObj :=
  let inner : Except PyErr PyObj :=
    match pyParse cs with
    | .error e => .error e
    | .ok a => evalNode vars a
  match inner with
  | .ok v => .ok v
  | .error e => .error ("Cannot parse expression: " ++ e.msg)

/-- Python `str()` on the fragment's objects. -/
def pyObjStr : PyObj → String
  | .int i => intStr i
  | .float q => pyFloatStr (.fin q)
  | .builtin f => "<built-in function " ++ f ++ ">"

/-- Python `float()` on the fragment's objects. -/
def pyFloatOf : PyObj → Except PyErr MRat
  | .int i => .ok ⟨i, 1⟩
  | .float q => .ok q
  | .builtin _ => .error (.typeError
      "float() argument must be a string or a real number, not 'builtin_function_or_method'")

/-- The mutable state of one `ExpressionEvaluatorPlugin` instance:
`self.variables` and `self.history`. -/
structure ExtState where
  vars : List (String × MRat)
  history : List (String × String)
deriving DecidableEq, Repr

/-- State of a freshly constructed plugin. -/
def initExtState : ExtState := ⟨[], []⟩

/-- `ExpressionEvaluatorPlugin._add_to_history`: append, then keep only the
last 50 entries (`self.history = self.history[-50:]`). -/
def addToHistory (st : ExtState) (expr result : String) : ExtState :=
  let h := st.history ++ [(expr, result)]
  { st with history := if 50 < h.length then h.drop (h.length - 50) else h }

/-- Python `s[-n:]`. -/
def lastN {α : Type} (n : Nat) (l : List α) : List α :=
  l.drop (l.length - n)

/-- `left.isPrefixOf right` spelled out. -/
def isPre : List Char → List Char → Bool
  | [], _ => true
  | _ :: _, [] => false
  | a :: as, b :: bs => a = b && isPre as bs

/-- Python `needle in hay` on strings. -/
def hasSubstr (needle : List Char) : List Char → Bool
  | [] => isPre needle []
  | c :: t => isPre needle (c :: t) || hasSubstr needle t

/-- Python `str.split(sep, 1)` for `sep = '='`, assuming a separator is
present (the caller checked `'=' in expression`). -/
def splitOnceEq : List Char → (List Char × List Char)
  | [] => ([], [])
  | c :: t =>
    if c = '=' then ([], t)
    else
      let p := splitOnceEq t
      (c :: p.1, p.2)

/-- ASCII model of Python `str.isidentifier()`. -/
def isIdentifierStr : List Char → Bool
  | [] => false
  | c :: t => isIdentStart c && t.all isIdentChar

/-- The multi-line help text returned for an unknown `?` command. -/
def extHelpText : String :=
  "Help commands:\n?vars - Show variables\n?funcs - Show functions\n?history - Show recent calculations\n?clear - Clear variables and history"

/-- One rendered line of the `?history` listing:
`f"{i+1}. {h['expr']} = {h['result']}"`. -/
def historyLine (p : Nat × (String × String)) : String :=
  natStr (p.1 + 1) ++ ". " ++ p.2.1 ++ " = " ++ p.2.2

/-- The `?history` response body over the last five entries. -/
def historyListing (entries : List (String × String)) : String :=
  "Recent calculations:\n" ++ String.intercalate "\n" ((lastN 5 entries).enum.map historyLine)

/-- `ExpressionEvaluatorPlugin._handle_help_command`. -/
def handleHelpCommand (st : ExtState) (command : List Char) : String × ExtState :=
  let cmd := (command.drop 1).map Char.toLower
  if cmd = "vars".toList ∨ cmd = "variables".toList then
    (if st.vars.isEmpty then "No variables defined"
     else "Variables: " ++
       String.intercalate ", " (st.vars.map (fun p => p.1 ++ "=" ++ pyFloatStr (.fin p.2))),
     st)
  else if cmd = "funcs".toList ∨ cmd = "functions".toList then
    ("Available functions: " ++ String.intercalate ", " builtinFunctions, st)
  else if cmd = "history".toList then
    (if st.history.isEmpty then "No calculation history" else historyListing st.history, st)
  else if cmd = "clear".toList then
    ("Cleared variables and history", ⟨[], []⟩)
  else
    (extHelpText, st)

/-- `ExpressionEvaluatorPlugin._handle_assignment`: split at the first `=`,
validate the identifier, evaluate the right-hand side, store
`float(value)`, record history, and answer `f"Set {var_name} = {value}"`
(note: `value` before the `float()` conversion). -/
def handleAssignment (st : ExtState) (expression : List Char) : String × ExtState :=
  let p := splitOnceEq expression
  let varName := pyStrip p.1
  let valueExpr := pyStrip p.2
  if !(isIdentifierStr varName) then
    ("Error: Invalid variable name '" ++ String.mk varName ++ "'", st)
  else
    match safeEval st.vars valueExpr with
    | .error e => ("Assignment Error: " ++ e, st)
    | .ok value =>
      match pyFloatOf value with
      | .error e => ("Assignment Error: " ++ e.msg, st)
      | .ok f =>
        let st1 : ExtState := { st with vars := insertVar st.vars (String.mk varName) f }
        let st2 := addToHistory st1 (String.mk expression)
          (String.mk varName ++ " = " ++ pyObjStr value)
        ("Set " ++ String.mk varName ++ " = " ++ pyObjStr value, st2)

/-- `ExpressionEvaluatorPlugin._execute_impl`: the evaluation entry point,
returning the response string and the successor state. -/
def extExecuteImpl (st : ExtState) (message : Option String) : String × ExtState :=
  let expression := pyStrip (pyOr message "").toList
  if expression.isEmpty then ("Error: Empty expression", st)
  else if expression.head? = some '?' then handleHelpCommand st expression
  else if hasSubstr ['='] expression &&
      !(hasSubstr "==".toList expression || hasSubstr "!=".toList expression ||
        hasSubstr ">=".toList expression || hasSubstr "<=".toList expression) then
    handleAssignment st expression
  else if isPre "def ".toList expression then
    ("Error: Custom function definitions not yet implemented. Use built-in functions.", st)
  else
    match safeEval st.vars expression with
    | .ok v =>
      ("Result: " ++ pyObjStr v, addToHistory st (String.mk expression) (pyObjStr v))
    | .error e =>
      ("Evaluation Error: " ++ e, addToHistory st (String.mk expression) ("Evaluation Error: " ++ e))

/-! ## Scientific calculator (`scientific_calculator.py`)

The scientific variant rewrites the expression text (whitespace removal,
implicit-multiplication insertion, constant substitution, regex-driven
function substitution) and hands the rewritten string to Python's `eval`
with restricted builtins, finally converting with `float()`.  The stdlib
pieces (`re.sub` for the concrete patterns used, `eval` on the arithmetic
fragment, and the `math` functions at the argument values arising in the
verified claims) are modelled; everything else is translated from the
source. -/

/-- One in-place rewriting pass of `re.sub(r'(X)(Y)', r'\1*\2', expr)` for
two single-character classes: scan left to right, and after a match resume
after the second character (matches do not overlap). -/
def insertMul (p q : Char → Bool) : List Char → List Char
  | [] => []
  | [c] => [c]
  | c :: d :: rest =>
    if p c && q d then c :: '*' :: d :: insertMul p q rest
    else c :: insertMul p q (d :: rest)

/-- `ScientificCalculatorPlugin._preprocess_expression`: strip whitespace and
insert implicit multiplication signs (`2pi` → `2*pi`, `)(`-style adjacency,
`a2` → `a*2`). -/
def sciPreprocess (cs : List Char) : List Char :=
  let e1 := cs.filter (fun c => !(isPySpace c))
  let e2 := insertMul Char.isDigit Char.isAlpha e1
  let e3 := insertMul (fun c => c = ')') (fun c => c.isAlpha || c.isDigit || c = '(') e2
  insertMul Char.isAlpha Char.isDigit e3

/-- Python `str.replace`, fuel-indexed (the fuel `length + 1` always
suffices since every step consumes at least one character). -/
def replaceAllF (pat repl : List Char) : Nat → List Char → List Char
  | 0, l => l
  | _ + 1, [] => []
  | n + 1, c :: t =>
    if !pat.isEmpty && isPre pat (c :: t) then
      repl ++ replaceAllF pat repl n ((c :: t).drop pat.length)
    else c :: replaceAllF pat repl n t

/-- Python `s.replace(pat, repl)`. -/
def pyReplace (s pat repl : List Char) : List Char :=
  replaceAllF pat repl (s.length + 1) s

/-- `str(math.pi)`. -/
def piStr : List Char := "3.141592653589793".toList

/-- `str(math.e)`. -/
def eStr : List Char := "2.718281828459045".toList

/-- `str(math.tau)`. -/
def tauStr : List Char := "6.283185307179586".toList

/-- The constant-substitution loop of `_evaluate_scientific_expression`,
iterating over `self.constants` in insertion order (`pi`, `e`, `tau`,
`inf`; `str(math.inf)` is `"inf"`, so the last replacement is the
identity). -/
def sciReplaceConstants (cs : List Char) : List Char :=
  let c1 := pyReplace cs "pi".toList piStr
  let c2 := pyReplace c1 "e".toList eStr
  let c3 := pyReplace c2 "tau".toList tauStr
  pyReplace c3 "inf".toList "inf".toList

/-- The double nearest `math.pi / 2` (the value reaching `math.sin` in the
`sin(pi/2)` trace, as the exact decimal the model computes). -/
def piHalf : MRat := MRat.norm 3141592653589793 (2 * 10 ^ 15)

/-- Modelled from the Python stdlib `math` module: the table of function
values used by the claims.  `math.sin` applied to the double nearest
`π/2` returns exactly `1.0` (IEEE-754 double rounding); `abs` is exact.
Arguments outside the modelled table are reported as unmodelled errors. -/
def mathFun : String → MRat → Except String MRat
  | "sin", x => if x = piHalf then .ok ⟨1, 1⟩ else .error "sin value not modelled"
  | "abs", x => .ok (if x.num < 0 then x.neg else x)
  | f, _ => .error (f ++ " value not modelled")

/-- `self.functions` keys sorted by length, longest first (Python's stable
sort on the dict's insertion order). -/
def sciFunctionNames : List String :=
  ["factorial", "degrees", "radians", "floor", "asin", "acos", "atan", "sinh",
   "cosh", "tanh", "log2", "sqrt", "ceil", "sin", "cos", "tan", "log", "abs",
   "exp", "ln"]

/-- Match `name\(([^)]+)\)` at the head of the input: the function name, an
opening parenthesis, a nonempty maximal run of non-`)` characters, and the
closing parenthesis.  Returns the argument text and the input after the
match. -/
def matchCall (fname : String) (cs : List Char) : Option (List Char × List Char) :=
  let f := fname.toList
  if isPre f cs then
    match cs.drop f.length with
    | '(' :: rest =>
      let arg := rest.takeWhile (fun c => c ≠ ')')
      let rest2 := rest.dropWhile (fun c => c ≠ ')')
      if arg.isEmpty then none
      else
        match rest2 with
        | ')' :: tail => some (arg, tail)
        | _ => none
    | _ => none
  else none

/-- The body of `replace_func` for one matched call: evaluate the argument
recursively, apply the function, and render `str(result)`; a failing
application is wrapped as `ValueError(f"Error in {f}({arg}): {e}")`. -/
def applySciFun (fname : String) (v : MRat) : Except String MRat :=
  match mathFun fname v with
  | .ok r => .ok r
  | .error e =>
    .error ("Error in " ++ fname ++ "(" ++ pyFloatStr (.fin v) ++ "): " ++ e)

/-- One `re.sub` pass for one function name: scan left to right, replacing
every call occurrence; errors raised by `replace_func` abort the whole
substitution, as an exception aborts `re.sub`. -/
def subFuncPass (ev : List Char → Except String MRat) (fname : String) :
    Nat → List Char → Except String (List Char)
  | 0, l => .ok l
  | _ + 1, [] => .ok []
  | n + 1, c :: t =>
    match matchCall fname (c :: t) with
    | some (arg, tail) =>
      match ev arg with
      | .error e => .error e
      | .ok v =>
        match applySciFun fname v with
        | .error e => .error e
        | .ok r =>
          match subFuncPass ev fname n tail with
          | .error e => .error e
          | .ok done => .ok ((pyFloatStr (.fin r)).toList ++ done)
    | none =>
      match subFuncPass ev fname n t with
      | .error e => .error e
      | .ok done => .ok (c :: done)

/-- `ScientificCalculatorPlugin._process_functions`: apply one substitution
pass per function name, longest names first. -/
def processSciFunctions (ev : List Char → Except String MRat) :
    List String → List Char → Except String (List Char)
  | [], cs => .ok cs
  | f :: fs, cs =>
    match subFuncPass ev f (cs.length + 1) cs with
    | .error e => .error e
    | .ok cs' => processSciFunctions ev fs cs'

/-- The names available to the scientific variant's final `eval`
(`allowed_names` minus `__builtins__`). -/
def sciAllowedNames : List String := ["abs", "pow", "min", "max"]

/-- Modelled from the Python stdlib: evaluation of the `eval` call on the
arithmetic fragment (restricted builtins; a bare unknown name raises
`NameError(f"name '{x}' is not defined")`). -/
def sciEvalNode : PyAst → Except PyErr PyObj
  | .constInt i => .ok (.int i)
  | .constFloat q => .ok (.float q)
  | .name x =>
    if sciAllowedNames.contains x then .ok (.builtin x)
    else .error (.nameError ("name '" ++ x ++ "' is not defined"))
  | .binop l op r =>
    match sciEvalNode l with
    | .error e => .error e
    | .ok lv =>
      match sciEvalNode r with
      | .error e => .error e
      | .ok rv => applySafeOp op lv rv
  | .unaryop neg a =>
    match sciEvalNode a with
    | .error e => .error e
    | .ok v => applyUnaryOp neg v

/-- `eval(expr, allowed_names)` on the fragment. -/
def sciPyEval (cs : List Char) : Except PyErr PyObj :=
  match pyParse cs with
  | .error e => .error e
  | .ok a => sciEvalNode a

/-- `ScientificCalculatorPlugin._evaluate_scientific_expression`:
preprocess, special-case empty / `"0"`, substitute constants, substitute
function calls (recursing into arguments), evaluate, convert with
`float()`; every failure is re-raised as
`ValueError(f"Cannot evaluate expression: {str(e)}")`.  The fuel models
Python's recursion limit, as in the basic variant. -/
def sciEvaluate : Nat → List Char → Except String MRat
  | 0, _ => .error maxRecMsg
  | n + 1, expr =>
    let e := sciPreprocess expr
    if e.isEmpty || e = ['0'] then .ok ⟨0, 1⟩
    else
      let inner : Except String MRat :=
        match processSciFunctions (sciEvaluate n) sciFunctionNames (sciReplaceConstants e) with
        | .error msg => .error msg
        | .ok e2 =>
          match sciPyEval e2 with
          | .error err => .error err.msg
          | .ok v =>
            match pyFloatOf v with
            | .error err => .error err.msg
            | .ok q => .ok q
      match inner with
      | .ok v => .ok v
      | .error msg => .error ("Cannot evaluate expression: " ++ msg)

/-- Best-effort rendering of `f"{q:.10g}"` on short exact decimals (not
exercised by any verified claim; the integral branch is separate). -/
def sciFormat10g (q : MRat) : String :=
  (if q.num < 0 then "-" else "") ++ natStr (q.num.natAbs / q.den) ++ "." ++
    String.mk (fracDigits 10 (q.num.natAbs % q.den) q.den)

/-- The response formatting of the scientific `_execute_impl`: an integral
numeric result (`result == int(result)`) renders as
`f"Result: {int(result)}"`, any other numeric result as
`f"Result: {result:.10g}"`, and a raised error as a
`"Scientific Calculator Error: "`-prefixed string. -/
def sciRespond : Except String MRat → String
  | .ok q =>
    if q.den = 1 then "Result: " ++ intStr q.num
    else "Result: " ++ sciFormat10g q
  | .error e => "Scientific Calculator Error: " ++ e

/-- `ScientificCalculatorPlugin._execute_impl`: strip, evaluate, format. -/
def sciExecuteImpl (message : Option String) : String :=
  sciRespond (sciEvaluate ((pyStrip (pyOr message "0").toList).length + 1)
    (pyStrip (pyOr message "0").toList))

/-- The shapes an extended-variant response can take: a labelled result,
a labelled error, an assignment confirmation, or one of the help
responses — in every case a string is returned, never an exception. -/
def ExtResponse (out : String) : Prop :=
  (∃ s, out = "Result: " ++ s) ∨
  (∃ s, out = "Evaluation Error: " ++ s) ∨
  (∃ s, out = "Set " ++ s) ∨
  (∃ s, out = "Assignment Error: " ++ s) ∨
  (∃ s, out = "Error: " ++ s) ∨
  (∃ s, out = "Variables: " ++ s) ∨
  (∃ s, out = "Available functions: " ++ s) ∨
  (∃ s, out = "Recent calculations:\n" ++ s) ∨
  out = "No variables defined" ∨
  out = "No calculation history" ∨
  out = "Cleared variables and history" ∨
  out = extHelpText

theorem takeWhile_append_of_all {p : Char → Bool} :
    ∀ (l1 l2 : List Char), (∀ c ∈ l1, p c = true) →
      (∀ c, l2.head? = some c → p c = false) →
      (l1 ++ l2).takeWhile p = l1 ∧ (l1 ++ l2).dropWhile p = l2 := by
  intro l1
  induction l1 with
  | nil =>
    intro l2 _ h2
    cases l2 with
    | nil => exact ⟨rfl, rfl⟩
    | cons c r => simp [List.takeWhile_cons, List.dropWhile_cons, h2 c rfl]
  | cons c r ih =>
    intro l2 h1 h2
    have hc : p c = true := h1 c (by simp)
    have := ih l2 (fun d hd => h1 d (by simp [hd])) h2
    simp [List.takeWhile_cons, List.dropWhile_cons, hc, this.1, this.2]

theorem digit_char_classes {c : Char} (h : c.isDigit = true) :
    c ≠ '-' ∧ c ≠ '+' ∧ c ≠ '(' ∧ c ≠ '.' ∧ c ≠ '*' ∧ c ≠ '/' := by
  refine ⟨?_, ?_, ?_, ?_, ?_, ?_⟩ <;> rintro rfl <;> exact absurd h (by decide)

theorem opHead_not_digit {suffix : List Char} (hs : opHead suffix) :
    ∀ c, suffix.head? = some c → Char.isDigit c = false := by
  intro c hc
  rcases hs c hc with h | h | h | h <;> subst h <;> decide

theorem parseNumber_render (m : Numeral) (suffix : List Char) (hwf : m.wf)
    (hs : opHead suffix) :
    parseNumber (m.render ++ suffix) = .ok (m.val, suffix) := by
  obtain ⟨hip, hipd, hfpd⟩ := hwf
  have hipe : m.ip.isEmpty = false := by
    cases h' : m.ip with
    | nil => exact absurd h' hip
    | cons a l => rfl
  have hsd := opHead_not_digit hs
  by_cases hfp : m.fp.isEmpty = true
  · have hrender : m.render = m.ip := by
      unfold Numeral.render; rw [hfp]; simp
    obtain ⟨htake, hdrop⟩ := takeWhile_append_of_all m.ip suffix hipd hsd
    rw [hrender]
    unfold parseNumber
    rw [htake, hdrop]
    cases suffix with
    | nil => simp [Numeral.val, hfp, hipe]
    | cons c rest =>
      have hcdot : c ≠ '.' := by
        intro h
        have := hs c rfl
        rw [h] at this
        rcases this with h' | h' | h' | h' <;> simp at h'
      simp only [Numeral.val, hfp, if_true, hipe]
      split
      · rename_i r2 heq
        exact absurd (List.cons.injEq .. ▸ heq).1 hcdot
      · simp [hipe]
  · have hfpne : m.fp ≠ [] := by
      intro h; rw [h] at hfp; exact hfp rfl
    have hrender : m.render = m.ip ++ '.' :: m.fp := by
      unfold Numeral.render; rw [if_neg hfp]
    obtain ⟨htake, hdrop⟩ := takeWhile_append_of_all m.ip ('.' :: (m.fp ++ suffix))
      hipd (by intro c hc; simp at hc; rw [← hc]; decide)
    obtain ⟨htake2, hdrop2⟩ := takeWhile_append_of_all m.fp suffix hfpd hsd
    have hassoc : m.render ++ suffix = m.ip ++ ('.' :: (m.fp ++ suffix)) := by
      rw [hrender]; simp
    rw [hassoc]
    unfold parseNumber
    rw [htake, hdrop]
    simp only [htake2, hdrop2]
    have : ¬ (m.ip.isEmpty = true ∧ m.fp.isEmpty = true) := by
      intro ⟨h1, _⟩; rw [hipe] at h1; exact Bool.noConfusion h1
    simp only [Numeral.val, hfp, if_false, hipe, Bool.false_eq_true, false_and, if_neg this]

theorem sumHead_opHead {suffix : List Char} (hs : sumHead suffix) : opHead suffix := by
  intro c hc
  rcases hs c hc with h | h
  · exact Or.inr (Or.inr (Or.inl h))
  · exact Or.inr (Or.inr (Or.inr h))

theorem opHead_renderTOps (r : List (TOp × Numeral)) {suffix : List Char}
    (hs : sumHead suffix) : opHead (renderTOps r ++ suffix) := by
  cases r with
  | nil => exact sumHead_opHead hs
  | cons p rest =>
    obtain ⟨o, m⟩ := p
    intro c hc
    cases o <;> simp [renderTOps, TOp.char] at hc <;> subst hc <;> simp

theorem sumHead_renderAOps (r : List (AOp × TermE)) : sumHead (renderAOps r) := by
  cases r with
  | nil => intro c hc; exact absurd hc (by simp [renderAOps])
  | cons p rest =>
    obtain ⟨o, t⟩ := p
    intro c hc
    cases o <;> simp [renderAOps, AOp.char] at hc <;> subst hc <;> simp

theorem parseFactor_render (n : Nat) (m : Numeral) (suffix : List Char) (hwf : m.wf)
    (hs : opHead suffix) :
    parseFactor (n + 1) (m.render ++ suffix) = .ok (m.val, suffix) := by
  obtain ⟨hip, hipd, hfpd⟩ := hwf
  cases hip' : m.ip with
  | nil => exact absurd hip' hip
  | cons c ip' =>
    have hcd : c.isDigit = true := hipd c (by rw [hip']; simp)
    obtain ⟨h1, h2, h3, _, _, _⟩ := digit_char_classes hcd
    obtain ⟨rest, hrend⟩ : ∃ rest, m.render ++ suffix = c :: rest :=
      ⟨ip' ++ ((if m.fp.isEmpty = true then [] else '.' :: m.fp) ++ suffix), by
        unfold Numeral.render; rw [hip']; simp⟩
    rw [hrend]
    simp only [parseFactor, if_neg h1, if_neg h2, if_neg h3]
    rw [← hrend]
    exact parseNumber_render m suffix ⟨hip, hipd, hfpd⟩ hs

theorem parseTermLoop_step (n : Nat) (acc : PVal) (c : Char) (r : List Char) :
    parseTermLoop (n + 1) acc (c :: r) =
      if c = '*' then
        match parseFactor n r with
        | .error e => .error e
        | .ok (v, cs') => parseTermLoop n (acc.pyMul v) cs'
      else if c = '/' then
        match parseFactor n r with
        | .error e => .error e
        | .ok (v, cs') => parseTermLoop n (acc.pyDivOp v) cs'
      else .ok (acc, c :: r) := rfl

theorem parseExprLoop_step (n : Nat) (acc : PVal) (c : Char) (r : List Char) :
    parseExprLoop (n + 1) acc (c :: r) =
      if c = '+' then
        match parseTerm n r with
        | .error e => .error e
        | .ok (v, cs') => parseExprLoop n (acc.pyAdd v) cs'
      else if c = '-' then
        match parseTerm n r with
        | .error e => .error e
        | .ok (v, cs') => parseExprLoop n (acc.pySub v) cs'
      else .ok (acc, c :: r) := rfl

theorem parseTermLoop_render (ops : List (TOp × Numeral)) :
    ∀ (n : Nat) (acc : PVal) (suffix : List Char),
      (∀ p ∈ ops, (Prod.snd p : Numeral).wf) →
      sumHead suffix →
      ops.length + 1 ≤ n →
      parseTermLoop n acc (renderTOps ops ++ suffix) = .ok (evalTOps acc ops, suffix) := by
  induction ops with
  | nil =>
    intro n acc suffix _ hsuf hn
    obtain ⟨k, rfl⟩ : ∃ k, n = k + 1 := ⟨n - 1, by omega⟩
    simp only [renderTOps, List.nil_append, evalTOps]
    cases suffix with
    | nil => rfl
    | cons c rest =>
      rcases hsuf c rfl with h | h <;> subst h <;> simp [parseTermLoop]
  | cons p rest ih =>
    obtain ⟨o, m⟩ := p
    intro n acc suffix hwf hsuf hn
    simp only [List.length_cons] at hn
    obtain ⟨k, rfl⟩ : ∃ k, n = k + 2 := ⟨n - 2, by omega⟩
    have hmwf : m.wf := hwf (o, m) (by simp)
    have hrest : ∀ p ∈ rest, (Prod.snd p : Numeral).wf := fun p hp => hwf p (by simp [hp])
    have hop : opHead (renderTOps rest ++ suffix) := opHead_renderTOps rest hsuf
    cases o with
    | mul =>
      have heq : renderTOps ((TOp.mul, m) :: rest) ++ suffix =
          '*' :: (m.render ++ (renderTOps rest ++ suffix)) := by
        simp [renderTOps, TOp.char]
      rw [heq, parseTermLoop_step]
      simp only [reduceIte]
      rw [parseFactor_render k m _ hmwf hop]
      exact ih (k + 1) (acc.pyMul m.val) suffix hrest hsuf (by omega)
    | div =>
      have heq : renderTOps ((TOp.div, m) :: rest) ++ suffix =
          '/' :: (m.render ++ (renderTOps rest ++ suffix)) := by
        simp [renderTOps, TOp.char]
      rw [heq, parseTermLoop_step]
      simp only [reduceIte]
      rw [parseFactor_render k m _ hmwf hop]
      exact ih (k + 1) (acc.pyDivOp m.val) suffix hrest hsuf (by omega)

theorem parseTerm_render (t : TermE) (n : Nat) (suffix : List Char)
    (hwf : t.wf) (hsuf : sumHead suffix) (hn : t.rest.length + 2 ≤ n) :
    parseTerm n (t.render ++ suffix) = .ok (t.eval, suffix) := by
  obtain ⟨k, rfl⟩ : ∃ k, n = k + 2 := ⟨n - 2, by omega⟩
  have heq : t.render ++ suffix = t.first.render ++ (renderTOps t.rest ++ suffix) := by
    simp [TermE.render]
  rw [heq]
  simp only [parseTerm]
  rw [parseFactor_render k t.first _ hwf.1 (opHead_renderTOps t.rest hsuf)]
  exact parseTermLoop_render t.rest (k + 1) t.first.val suffix hwf.2 hsuf (by omega)

theorem parseExprLoop_render (rest : List (AOp × TermE)) :
    ∀ (n : Nat) (acc : PVal),
      (∀ p ∈ rest, (Prod.snd p : TermE).wf) →
      needA rest + 1 ≤ n →
      parseExprLoop n acc (renderAOps rest) = .ok (evalAOps acc rest, []) := by
  induction rest with
  | nil =>
    intro n acc _ hn
    obtain ⟨k, rfl⟩ : ∃ k, n = k + 1 := ⟨n - 1, by omega⟩
    rfl
  | cons p r ih =>
    obtain ⟨o, t⟩ := p
    intro n acc hwf hn
    simp only [needA] at hn
    obtain ⟨k, rfl⟩ : ∃ k, n = k + 1 := ⟨n - 1, by omega⟩
    have htwf : t.wf := hwf (o, t) (by simp)
    have hr : ∀ p ∈ r, (Prod.snd p : TermE).wf := fun p hp => hwf p (by simp [hp])
    cases o with
    | add =>
      have heq : renderAOps ((AOp.add, t) :: r) = '+' :: (t.render ++ renderAOps r) := by
        simp [renderAOps, AOp.char]
      rw [heq, parseExprLoop_step]
      simp only [reduceIte]
      rw [parseTerm_render t k (renderAOps r) htwf (sumHead_renderAOps r) (by omega)]
      exact ih k (acc.pyAdd t.eval) hr (by omega)
    | sub =>
      have heq : renderAOps ((AOp.sub, t) :: r) = '-' :: (t.render ++ renderAOps r) := by
        simp [renderAOps, AOp.char]
      rw [heq, parseExprLoop_step]
      simp only [reduceIte]
      rw [parseTerm_render t k (renderAOps r) htwf (sumHead_renderAOps r) (by omega)]
      exact ih k (acc.pySub t.eval) hr (by omega)

theorem parseExpression_render (s : SumE) (n : Nat) (hwf : s.wf)
    (hn : s.first.rest.length + 3 + needA s.rest + 1 ≤ n) :
    parseExpression n s.render = .ok (s.eval, []) := by
  obtain ⟨k, rfl⟩ : ∃ k, n = k + 1 := ⟨n - 1, by omega⟩
  have heq : s.render = s.first.render ++ renderAOps s.rest := rfl
  rw [heq]
  simp only [parseExpression]
  rw [parseTerm_render s.first k (renderAOps s.rest) hwf.1 (sumHead_renderAOps s.rest)
    (by omega)]
  exact parseExprLoop_render s.rest k s.first.eval hwf.2 (by omega)

theorem numeral_render_len (m : Numeral) (h : m.wf) : 1 ≤ m.render.length := by
  obtain ⟨hip, _, _⟩ := h
  unfold Numeral.render
  cases h' : m.ip with
  | nil => exact absurd h' hip
  | cons c r => simp

theorem term_render_len (t : TermE) (h : t.wf) : t.rest.length + 1 ≤ t.render.length := by
  have h1 := numeral_render_len t.first h.1
  have h2 : ∀ ops : List (TOp × Numeral), ops.length ≤ (renderTOps ops).length := by
    intro ops
    induction ops with
    | nil => simp [renderTOps]
    | cons p r ih =>
      obtain ⟨o, m⟩ := p
      simp only [renderTOps, List.length_cons, List.length_append]
      omega
  have := h2 t.rest
  simp only [TermE.render, List.length_append]
  omega

theorem needA_render_len (rest : List (AOp × TermE))
    (h : ∀ p ∈ rest, (Prod.snd p : TermE).wf) :
    needA rest ≤ 2 * (renderAOps rest).length := by
  induction rest with
  | nil => simp [needA, renderAOps]
  | cons p r ih =>
    obtain ⟨o, t⟩ := p
    have htwf : t.wf := h (o, t) (by simp)
    have hterm := term_render_len t htwf
    have hr := ih (fun p hp => h p (by simp [hp]))
    simp only [needA, renderAOps, List.length_cons, List.length_append]
    omega

/-- The fuel supplied by `evaluateExpression` suffices for every well-formed
parenthesis-free expression. -/
theorem evaluateExpression_render (s : SumE) (hwf : s.wf) :
    evaluateExpression s.render = .ok s.eval := by
  have hterm := term_render_len s.first hwf.1
  have hneed := needA_render_len s.rest hwf.2
  have hlen : s.render.length = s.first.render.length + (renderAOps s.rest).length := by
    simp [SumE.render]
  unfold evaluateExpression
  rw [parseExpression_render s _ hwf (by omega)]
  rfl

theorem natDigitsAux_digits :
    ∀ (fuel n : Nat), ∀ c ∈ natDigitsAux fuel n, c.isDigit = true := by
  intro fuel
  induction fuel with
  | zero => intro n c hc; simp [natDigitsAux] at hc
  | succ f ih =>
    intro n c hc
    by_cases hn : n = 0
    · simp [natDigitsAux, hn] at hc
    · simp only [natDigitsAux, if_neg hn, List.mem_append, List.mem_singleton] at hc
      rcases hc with hc | hc
      · exact ih _ c hc
      · subst hc
        have h10 : n % 10 < 10 := Nat.mod_lt _ (by norm_num)
        set k := n % 10 with hk
        interval_cases k <;> decide

theorem natStr_no_dot (n : Nat) : '.' ∉ (natStr n).data := by
  unfold natStr
  split
  · decide
  · intro hmem
    have := natDigitsAux_digits (n + 1) n '.' hmem
    exact absurd this (by decide)

theorem intStr_no_dot (i : Int) : '.' ∉ (intStr i).data := by
  unfold intStr
  split
  · intro hmem
    have : ("-" ++ natStr i.natAbs).data = '-' :: (natStr i.natAbs).data := rfl
    rw [this] at hmem
    rcases List.mem_cons.mp hmem with h | h
    · exact absurd h (by decide)
    · exact natStr_no_dot _ h
  · exact natStr_no_dot _

theorem extR_result {out s : String} (h : out = "Result: " ++ s) : ExtResponse out :=
  Or.inl ⟨s, h⟩

theorem extR_eval {out s : String} (h : out = "Evaluation Error: " ++ s) : ExtResponse out :=
  Or.inr (Or.inl ⟨s, h⟩)

theorem extR_set {out s : String} (h : out = "Set " ++ s) : ExtResponse out :=
  Or.inr (Or.inr (Or.inl ⟨s, h⟩))

theorem extR_assign {out s : String} (h : out = "Assignment Error: " ++ s) : ExtResponse out :=
  Or.inr (Or.inr (Or.inr (Or.inl ⟨s, h⟩)))

theorem extR_error {out s : String} (h : out = "Error: " ++ s) : ExtResponse out :=
  Or.inr (Or.inr (Or.inr (Or.inr (Or.inl ⟨s, h⟩))))

theorem extR_vars {out s : String} (h : out = "Variables: " ++ s) : ExtResponse out :=
  Or.inr (Or.inr (Or.inr (Or.inr (Or.inr (Or.inl ⟨s, h⟩)))))

theorem extR_funcs {out s : String} (h : out = "Available functions: " ++ s) : ExtResponse out :=
  Or.inr (Or.inr (Or.inr (Or.inr (Or.inr (Or.inr (Or.inl ⟨s, h⟩))))))

theorem extR_recent {out s : String} (h : out = "Recent calculations:\n" ++ s) : ExtResponse out :=
  Or.inr (Or.inr (Or.inr (Or.inr (Or.inr (Or.inr (Or.inr (Or.inl ⟨s, h⟩)))))))

theorem extR_novars {out : String} (h : out = "No variables defined") : ExtResponse out :=
  Or.inr (Or.inr (Or.inr (Or.inr (Or.inr (Or.inr (Or.inr (Or.inr (Or.inl h))))))))

theorem extR_nohist {out : String} (h : out = "No calculation history") : ExtResponse out :=
  Or.inr (Or.inr (Or.inr (Or.inr (Or.inr (Or.inr (Or.inr (Or.inr (Or.inr (Or.inl h)))))))))

theorem extR_cleared {out : String} (h : out = "Cleared variables and history") :
    ExtResponse out :=
  Or.inr (Or.inr (Or.inr (Or.inr (Or.inr (Or.inr (Or.inr (Or.inr (Or.inr (Or.inr (Or.inl h))))))))))

theorem extR_help {out : String} (h : out = extHelpText) : ExtResponse out :=
  Or.inr (Or.inr (Or.inr (Or.inr (Or.inr (Or.inr (Or.inr (Or.inr (Or.inr (Or.inr (Or.inr h))))))))))

theorem handleHelp_response (st : ExtState) (c : List Char) :
    ExtResponse (handleHelpCommand st c).1 := by
  simp only [handleHelpCommand]
  split
  · split
    · exact extR_novars rfl
    · exact extR_vars rfl
  · split
    · exact extR_funcs rfl
    · split
      · split
        · exact extR_nohist rfl
        · exact extR_recent rfl
      · split
        · exact extR_cleared rfl
        · exact extR_help rfl

theorem handleAssignment_response (st : ExtState) (e : List Char) :
    ExtResponse (handleAssignment st e).1 := by
  simp only [handleAssignment]
  split
  · exact extR_error rfl
  · split
    · exact extR_assign rfl
    · split
      · exact extR_assign rfl
      · exact extR_set rfl

theorem addToHistory_drop (st : ExtState) (e r : String) :
    (addToHistory st e r).history =
      (st.history ++ [(e, r)]).drop ((st.history.length + 1) - 50) := by
  simp only [addToHistory]
  have hlen : (st.history ++ [(e, r)]).length = st.history.length + 1 := by simp
  rw [hlen]
  split
  · rfl
  · rename_i h
    have h0 : st.history.length + 1 - 50 = 0 := by omega
    rw [h0, List.drop_zero]

theorem help_history_cases (st : ExtState) (c : List Char) :
    (handleHelpCommand st c).2.history = st.history ∨
      (handleHelpCommand st c).2.history = [] := by
  simp only [handleHelpCommand]
  split
  · exact Or.inl rfl
  · split
    · exact Or.inl rfl
    · split
      · exact Or.inl rfl
      · split
        · exact Or.inr rfl
        · exact Or.inl rfl

theorem assignment_history_cases (st : ExtState) (e : List Char) :
    (handleAssignment st e).2.history = st.history ∨
      ∃ en, (handleAssignment st e).2.history =
        (st.history ++ [en]).drop ((st.history.length + 1) - 50) := by
  simp only [handleAssignment]
  split
  · exact Or.inl rfl
  · split
    · exact Or.inl rfl
    · split
      · exact Or.inl rfl
      · exact Or.inr ⟨_, addToHistory_drop _ _ _⟩

theorem ext_history_cases (st : ExtState) (message : Option String) :
    (extExecuteImpl st message).2.history = st.history ∨
      (extExecuteImpl st message).2.history = [] ∨
      ∃ en, (extExecuteImpl st message).2.history =
        (st.history ++ [en]).drop ((st.history.length + 1) - 50) := by
  simp only [extExecuteImpl]
  split
  · exact Or.inl rfl
  · split
    · rcases help_history_cases st _ with h | h
      · exact Or.inl h
      · exact Or.inr (Or.inl h)
    · split
      · rcases assignment_history_cases st _ with h | h
        · exact Or.inl h
        · exact Or.inr (Or.inr h)
      · split
        · exact Or.inl rfl
        · split
          · exact Or.inr (Or.inr ⟨_, addToHistory_drop st _ _⟩)
          · exact Or.inr (Or.inr ⟨_, addToHistory_drop st _ _⟩)

/-- C1: Totality of the evaluation boundary.  For every input (including a
missing message), each variant's `_execute_impl` returns a string and never
propagates an exception: the basic variant answers either a
`"Result: "`-string or a `"Calculator Error: "`-string, the scientific
variant either a `"Result: "`-string or a
`"Scientific Calculator Error: "`-string, and the extended variant one of
its labelled response shapes (result, evaluation error, assignment
confirmation or error, `"Error: "`-labelled message, or a help response). -/
theorem calculator_boundary_total :
    (∀ message : Option String,
        (∃ s, basicExecuteImpl message = "Result: " ++ s) ∨
          ∃ s, basicExecuteImpl message = "Calculator Error: " ++ s) ∧
    (∀ message : Option String,
        (∃ s, sciExecuteImpl message = "Result: " ++ s) ∨
          ∃ s, sciExecuteImpl message = "Scientific Calculator Error: " ++ s) ∧
    ∀ (st : ExtState) (message : Option String),
      ExtResponse (extExecuteImpl st message).1 := by
  refine ⟨?_, ?_, ?_⟩
  · intro message
    simp only [basicExecuteImpl]
    split
    · exact Or.inr ⟨_, rfl⟩
    · split
      · exact Or.inl ⟨_, rfl⟩
      · exact Or.inr ⟨_, rfl⟩
  · intro message
    simp only [sciExecuteImpl]
    cases sciEvaluate ((pyStrip (pyOr message "0").toList).length + 1)
        (pyStrip (pyOr message "0").toList) with
    | ok q =>
      simp only [sciRespond]
      split
      · exact Or.inl ⟨_, rfl⟩
      · exact Or.inl ⟨_, rfl⟩
    | error e => exact Or.inr ⟨_, rfl⟩
  · intro st message
    simp only [extExecuteImpl]
    split
    · exact @extR_error _ "Empty expression" rfl
    · split
      · exact handleHelp_response st _
      · split
        · exact handleAssignment_response st _
        · split
          · exact @extR_error _
              "Custom function definitions not yet implemented. Use built-in functions." rfl
          · split
            · exact extR_result rfl
            · exact extR_eval rfl

/-- C2 (counterexample): evaluating `"-10/0"` in the basic calculator yields
*positive* infinity, not negative infinity — the division table entry
returns `float('inf')` whenever the divisor is zero, regardless of the
dividend's sign. -/
theorem basic_div_zero_counterexample :
    basicExecuteImpl (some "-10/0") = "Result: inf" ∧
    evaluateExpression ("-10/0".toList) = .ok PVal.inf ∧
    PVal.inf ≠ PVal.ninf ∧
    "Result: inf" ≠ "Result: -inf" :=
  ⟨by decide, rfl, by decide, by decide⟩

/-- C2 (amended): division by zero in the basic calculator is defined
behavior, not an error: both `"10 / 0"` and `"-10/0"` evaluate to positive
infinity; the unary minus is applied to the factor `10` before the
division, and the division entry then returns `float('inf')` because the
divisor is zero. -/
theorem basic_div_zero_inf :
    basicExecuteImpl (some "10 / 0") = "Result: inf" ∧
    basicExecuteImpl (some "-10/0") = "Result: inf" ∧
    evaluateExpression ("-10/0".toList) =
      .ok (PVal.pyDivOp (PVal.pyNeg (.fin ⟨10, 1⟩)) (.fin ⟨0, 1⟩)) ∧
    PVal.pyDivOp (PVal.pyNeg (.fin ⟨10, 1⟩)) (.fin ⟨0, 1⟩) = PVal.inf :=
  ⟨by decide, by decide, rfl, by decide⟩

/-- C3 (counterexample): `"2 + 3 4"` does not fail — the cleaning pass
removes all whitespace first, so the parser sees `"2+34"` and silently
returns `36.0`. -/
theorem basic_trailing_garbage_counterexample :
    basicExecuteImpl (some "2 + 3 4") = "Result: 36.0" ∧
    "Result: 36.0" ≠ "Calculator Error: Unexpected characters at end of expression" :=
  ⟨by decide, by decide⟩

/-- C3 (amended): whitespace is stripped before validation and parsing, so
`"2 + 3 4"` becomes `"2+34"` and evaluates to `36.0` (neither a
trailing-characters error nor `5.0`); trailing garbage that survives
cleaning, such as `"2+3)"`, does fail with the trailing-characters
error. -/
theorem basic_trailing_garbage_amended :
    cleanExpression ("2 + 3 4".toList) = .ok ("2+34".toList) ∧
    basicExecuteImpl (some "2 + 3 4") = "Result: 36.0" ∧
    "Result: 36.0" ≠ "Result: 5.0" ∧
    basicExecuteImpl (some "2+3)") =
      "Calculator Error: Unexpected characters at end of expression" :=
  ⟨rfl, by decide, by decide, by decide⟩

/-- C4: for every well-formed parenthesis-free expression over
`+ - * /` (a sum of products of numerals, `SumE`), the basic calculator's
recursive-descent parser returns exactly the reference semantics in which
`*`/`/` bind tighter than `+`/`-` and equal-precedence operators combine
left-associatively; in particular `"2 + 3 * 4"` evaluates to `14.0` and
`"10 - 2 - 3"` to `5.0`. -/
theorem basic_precedence_left_assoc :
    (∀ s : SumE, s.wf → evaluateExpression s.render = .ok s.eval) ∧
    basicExecuteImpl (some "2 + 3 * 4") = "Result: 14.0" ∧
    basicExecuteImpl (some "10 - 2 - 3") = "Result: 5.0" :=
  ⟨fun s hwf => evaluateExpression_render s hwf, by decide, by decide⟩

/-- Witness for C4: the universal statement applied to the concrete
expressions `2+3*4` and `10-2-3`, whose well-formedness is discharged by
computation and whose reference values are `14.0` and `5.0`. -/
theorem basic_precedence_left_assoc_witness :
    (evaluateExpression sumTwoPlusThreeTimesFour.render = .ok sumTwoPlusThreeTimesFour.eval ∧
      sumTwoPlusThreeTimesFour.render = "2+3*4".toList ∧
      sumTwoPlusThreeTimesFour.eval = .fin ⟨14, 1⟩) ∧
    evaluateExpression sumTenMinusTwoMinusThree.render = .ok sumTenMinusTwoMinusThree.eval ∧
      sumTenMinusTwoMinusThree.render = "10-2-3".toList ∧
      sumTenMinusTwoMinusThree.eval = .fin ⟨5, 1⟩ :=
  ⟨⟨basic_precedence_left_assoc.1 sumTwoPlusThreeTimesFour (by decide), by decide, by decide⟩,
    basic_precedence_left_assoc.1 sumTenMinusTwoMinusThree (by decide), by decide, by decide⟩

set_option maxRecDepth 10000 in
/-- C5: history bounding.  For every state whose history respects the
50-entry bound and every input, one evaluation call preserves the bound,
and the new history is a suffix of the old history extended by the
appended entries (entries are only ever appended, and only the oldest are
evicted).  Starting from a fresh evaluator, 60 sequential evaluations of
the numerals `0`..`59` leave exactly the 50 most recent entries, the first
10 having been evicted. -/
theorem ext_history_bounded :
    (∀ (st : ExtState) (message : Option String),
        st.history.length ≤ 50 →
          (extExecuteImpl st message).2.history.length ≤ 50 ∧
            ∃ appended, (extExecuteImpl st message).2.history <:+ st.history ++ appended) ∧
    ((List.range 60).foldl (fun st n => (extExecuteImpl st (some (natStr n))).2)
          initExtState).history =
      ((List.range 60).map (fun n => (natStr n, natStr n))).drop 10 := by
  constructor
  · intro st message h50
    rcases ext_history_cases st message with h | h | ⟨en, h⟩
    · rw [h]
      exact ⟨h50, [], by simp⟩
    · rw [h]
      exact ⟨by simp, [], List.nil_suffix⟩
    · rw [h]
      constructor
      · simp only [List.length_drop, List.length_append, List.length_singleton]
        omega
      · exact ⟨[en], List.drop_suffix _ _⟩
  · decide

/-- Witness for C5: one evaluation call from the fresh state, whose
50-entry bound holds trivially; the appended entry is the recorded
calculation. -/
theorem ext_history_bounded_witness :
    (extExecuteImpl initExtState (some "1+1")).2.history.length ≤ 50 ∧
    ∃ appended,
      (extExecuteImpl initExtState (some "1+1")).2.history <:+
        initExtState.history ++ appended :=
  ext_history_bounded.1 initExtState (some "1+1") (by decide)

/-- C6: variable persistence on one evaluator instance.  After `"x = 5"`,
then `"y = x * 2"`, then `"x + y"`, the final response is
`"Result: 15.0"`; the environment after the second call binds `x` to `5.0`
and `y` to `10.0`, so assignments made in earlier calls are visible to
later calls. -/
theorem ext_variable_persistence :
    (extExecuteImpl (extExecuteImpl (extExecuteImpl initExtState (some "x = 5")).2
        (some "y = x * 2")).2 (some "x + y")).1 = "Result: 15.0" ∧
    (extExecuteImpl (extExecuteImpl initExtState (some "x = 5")).2
        (some "y = x * 2")).2.vars = [("x", ⟨5, 1⟩), ("y", ⟨10, 1⟩)] ∧
    pyFloatStr (.fin ⟨15, 1⟩) = "15.0" :=
  ⟨by decide, by decide, by decide⟩

/-- C7 (counterexample): with `x` bound and `y` unbound, `"x + y"` does not
return `"Evaluation Error: Name 'y' is not defined"`: `_safe_eval` wraps
the `NameError` in its catch-all, so the response carries the extra
`"Cannot parse expression: "` layer. -/
theorem ext_undefined_name_counterexample :
    (extExecuteImpl (extExecuteImpl initExtState (some "x = 5")).2 (some "x + y")).1 =
      "Evaluation Error: Cannot parse expression: Name 'y' is not defined" ∧
    "Evaluation Error: Cannot parse expression: Name 'y' is not defined" ≠
      "Evaluation Error: Name 'y' is not defined" :=
  ⟨by decide, by decide⟩

/-- C7 (amended): evaluating `"x + y"` with `y` unbound (and not a
built-in) returns exactly
`"Evaluation Error: Cannot parse expression: Name 'y' is not defined"`;
the underlying `NameError` raised by `_eval_node` carries
`"Name 'y' is not defined"`, and `_safe_eval` re-raises it wrapped as a
parse failure before the boundary prefixes the category label. -/
theorem ext_undefined_name_message :
    (extExecuteImpl (extExecuteImpl initExtState (some "x = 5")).2 (some "x + y")).1 =
      "Evaluation Error: Cannot parse expression: Name 'y' is not defined" ∧
    evalNode [("x", ⟨5, 1⟩)] (.binop (.name "x") .add (.name "y")) =
      .error (.nameError "Name 'y' is not defined") ∧
    lookupVar [("x", ⟨5, 1⟩)] "y" = none ∧
    builtinFunctions.contains "y" = false :=
  ⟨by decide, rfl, by decide, by decide⟩

/-- C8: evaluating `"x = 5"` updates the environment so that `x` is bound
to the float `5.0`, but the response string is `"Set x = 5"`, not the
documented `"Set x = 5.0"`: the confirmation interpolates the evaluated
value before the `float()` conversion, which is applied only to the stored
value. -/
theorem ext_assignment_response :
    (extExecuteImpl initExtState (some "x = 5")).1 = "Set x = 5" ∧
    (extExecuteImpl initExtState (some "x = 5")).2.vars = [("x", ⟨5, 1⟩)] ∧
    "Set x = 5" ≠ "Set x = 5.0" ∧
    pyFloatStr (.fin ⟨5, 1⟩) = "5.0" :=
  ⟨by decide, by decide, by decide, by decide⟩

/-- C9: integral-result formatting in the scientific variant.  Whenever the
evaluation pipeline produces a mathematically integral value, the response
is `f"Result: {int(result)}"`, which contains no decimal point; in
particular `"sin(pi/2)"` answers exactly `"Result: 1"`. -/
theorem sci_integral_formatting :
    (∀ (message : Option String) (q : MRat),
        sciEvaluate ((pyStrip (pyOr message "0").toList).length + 1)
            (pyStrip (pyOr message "0").toList) = .ok q →
        q.den = 1 →
        sciExecuteImpl message = "Result: " ++ intStr q.num ∧
          '.' ∉ (sciExecuteImpl message).data) ∧
    sciExecuteImpl (some "sin(pi/2)") = "Result: 1" := by
  constructor
  · intro message q hev hden
    have hout : sciExecuteImpl message = "Result: " ++ intStr q.num := by
      simp only [sciExecuteImpl]
      rw [hev]
      simp [sciRespond, hden]
    refine ⟨hout, ?_⟩
    rw [hout]
    have hdata : ("Result: " ++ intStr q.num).data =
        "Result: ".data ++ (intStr q.num).data := rfl
    rw [hdata]
    intro hmem
    rcases List.mem_append.mp hmem with h | h
    · exact absurd h (by decide)
    · exact intStr_no_dot q.num h
  · decide

/-- Witness for C9: the pipeline value of `"sin(pi/2)"` is the integral
`1.0`, and the formatting theorem applied there yields `"Result: 1"` with
no decimal point in the response. -/
theorem sci_integral_formatting_witness :
    sciExecuteImpl (some "sin(pi/2)") = "Result: " ++ intStr (1 : Int) ∧
    '.' ∉ (sciExecuteImpl (some "sin(pi/2)")).data :=
  sci_integral_formatting.1 (some "sin(pi/2)") ⟨1, 1⟩ rfl (by decide)

/-- C10: the `?history` help command of the extended variant displays at
most the five most recent history entries: for any state holding more than
five entries, the listing is built from exactly the last five, in order,
numbered 1 to 5, and the command leaves the state unchanged. -/
theorem ext_history_display (st : ExtState) (h5 : 5 < st.history.length) :
    (handleHelpCommand st ("?history".toList)).1 =
      "Recent calculations:\n" ++ String.intercalate "\n"
        ((st.history.drop (st.history.length - 5)).enum.map historyLine) ∧
    (handleHelpCommand st ("?history".toList)).2 = st ∧
    lastN 5 st.history = st.history.drop (st.history.length - 5) ∧
    (st.history.drop (st.history.length - 5)).length = 5 := by
  have hne : st.history.isEmpty = false := by
    cases h : st.history
    · rw [h] at h5; simp at h5
    · rfl
  have hred : handleHelpCommand st ("?history".toList) =
      (if st.history.isEmpty then "No calculation history" else historyListing st.history,
        st) := rfl
  rw [hred, hne]
  refine ⟨rfl, rfl, rfl, ?_⟩
  rw [List.length_drop]
  omega

/-- Witness for C10: a six-entry history; the listing shows entries two
through six, numbered 1 to 5. -/
theorem ext_history_display_witness :
    ((handleHelpCommand
        (⟨[], [("a", "1"), ("b", "2"), ("c", "3"), ("d", "4"), ("e", "5"), ("f", "6")]⟩ :
          ExtState) ("?history".toList)).1 =
      "Recent calculations:\n1. b = 2\n2. c = 3\n3. d = 4\n4. e = 5\n5. f = 6") ∧
    (lastN 5 ([("a", "1"), ("b", "2"), ("c", "3"), ("d", "4"), ("e", "5"), ("f", "6")] :
        List (String × String))).length = 5 :=
  ⟨by
    have h := (ext_history_display
      ⟨[], [("a", "1"), ("b", "2"), ("c", "3"), ("d", "4"), ("e", "5"), ("f", "6")]⟩
      (by decide)).1
    rw [h]
    decide,
   by decide⟩
